import Mathlib

/-!
Shallow embedding of `scraper.py` (the `czl-sanatate` crawler) and proofs
about the claims of its specification.

Embedding conventions:

* Python strings are `String`/`List Char`; machine-level details do not
  arise (Python integers are unbounded, modelled as `Nat`/`Int`).
* A Python expression that can raise an uncaught exception is modelled in
  `Option`: `none` is an uncaught exception escaping the enclosing block.
* The external collaborators (HTTP fetch, HTML querying via `response.css`
  / `xpath`, the `scraperwiki` sink) are out of scope per the spec; a page
  block is therefore embedded as the already-extracted strings the code
  reads from the HTML tree (see `Block` below).
* The two third-party text libraries used by the code, `unidecode` and
  `hashlib.md5`, are not part of this repository; `unidecode` is modelled
  from the spec (see `unidecodeChar`), `md5` is implemented in full
  (RFC 1321) below.
* The regular expressions of the scraper are embedded as executable
  matchers with Python's leftmost / greedy / backtracking semantics,
  specialised to the concrete patterns appearing in the source.
-/

/-! ### Basic string utilities -/

/-- `beginsWith p s` is true when the character list `p` is an initial
segment of `s` (used to embed Python substring / match primitives). -/
def beginsWith : List Char → List Char → Bool
  | [], _ => true
  | _ :: _, [] => false
  | p :: ps, c :: cs => p == c && beginsWith ps cs

/-- Python's `needle in haystack` on strings: `needle` occurs as a
contiguous subsequence of `haystack`. -/
def containsSeq (needle : List Char) : List Char → Bool
  | [] => needle.isEmpty
  | c :: rest => beginsWith needle (c :: rest) || containsSeq needle rest

/-- Value of a decimal digit list, as computed by Python's `int()` on a
string of digits. -/
def natOfDigits (s : List Char) : Nat :=
  s.foldl (fun a c => 10 * a + (c.toNat - 48)) 0

/-! ### TextNormalizer: `DIACRITICS_RULES`, `unidecode`, `strip_diacritics`
(lines 18-27 and 67-76 of `scraper.py`) -/

/-- Lines 18-27: each rule is a character class (the alternatives of the
regex class) together with its ASCII replacement character. -/
def DIACRITICS_RULES : List (List Char × Char) :=
  [ (['ș', 'ş'], 's'),
    (['Ș', 'Ş'], 'S'),
    (['ț', 'ţ'], 't'),
    (['Ț', 'Ţ'], 'T'),
    (['ă', 'â'], 'a'),
    (['Ă', 'Â'], 'A'),
    (['î'], 'i'),
    (['Î'], 'I') ]

/-- One `re.sub(search_pattern, replacement, result, re.UNICODE)` call of
`strip_diacritics` (line 75).  Each pattern is a single-character class, so
the substitution rewrites matching characters left to right.  Python's
`re.sub` takes `count` as its fourth positional parameter, so the flag
`re.UNICODE` (numeric value 32) is silently passed as a replacement count:
at most 32 occurrences are replaced per rule. -/
def subCharClass (cls : List Char) (repl : Char) : Nat → List Char → List Char
  | _, [] => []
  | 0, s => s
  | count + 1, c :: rest =>
    if cls.contains c then repl :: subCharClass cls repl count rest
    else c :: subCharClass cls repl (count + 1) rest

/-- Modelled from the spec: the external `unidecode` library (§4.1, the
"general transliteration fallback pass that maps any remaining non-ASCII
letters to their closest ASCII approximation").  It is the identity on
ASCII characters, transliterates the Romanian diacritics the scraper cares
about to their base letters, and drops any other character, always
producing ASCII output. -/
def unidecodeChar (c : Char) : List Char :=
  if c.toNat < 128 then [c]
  else if c == 'ș' || c == 'ş' then ['s']
  else if c == 'Ș' || c == 'Ş' then ['S']
  else if c == 'ț' || c == 'ţ' then ['t']
  else if c == 'Ț' || c == 'Ţ' then ['T']
  else if c == 'ă' || c == 'â' then ['a']
  else if c == 'Ă' || c == 'Â' then ['A']
  else if c == 'î' then ['i']
  else if c == 'Î' then ['I']
  else []

/-- `unidecode` applied to a whole string (character-wise transliteration). -/
def unidecodeStr : List Char → List Char
  | [] => []
  | c :: rest => unidecodeChar c ++ unidecodeStr rest

/-- Lines 67-76: apply the eight diacritic substitution rules in order
(each limited to 32 replacements, see `subCharClass`), then the
`unidecode` fallback pass. -/
def strip_diacritics (text : String) : String :=
  let result := DIACRITICS_RULES.foldl
    (fun acc rule => subCharClass rule.1 rule.2 32 acc) text.data
  String.mk (unidecodeStr result)

/-! ### TypeClassifier: `TYPE_RULES`, `guess_initiative_type`, and the
title truncation of `parse` (lines 29-41, 48-65, 109-114) -/

/-- Lines 29-41: ordered search-string / type-code rules. -/
def TYPE_RULES : List (String × String) :=
  [ ("lege", "LEGE"),
    ("hotarare de guvern", "HG"),
    ("hotarare a guvernului", "HG"),
    ("hotarare", "HG"),
    ("hg", "HG"),
    ("ordonanta de guvern", "OG"),
    ("ordonanta de urgenta", "OUG"),
    ("ordin de ministru", "OM"),
    ("ordinul", "OM"),
    ("ordin", "OM"),
    ("ordonanta", "OG") ]

/-- Lines 48-65: strip diacritics from the text, then return the type of
the first rule whose search string occurs in it, or "OTHER" if none does. -/
def guess_initiative_type (text : String) (rules : List (String × String)) : String :=
  let text := strip_diacritics text
  match rules.find? (fun rule => containsSeq rule.1.data text.data) with
  | some rule => rule.2
  | none => "OTHER"

/-- Line 111, `re.search(r'(pentru|privind)', publication_text)`: index (in
characters) of the leftmost occurrence of "pentru" or "privind", i.e.
`stop_pos.start()`, or `none` when the search fails. -/
def findStopAux (i : Nat) : List Char → Option Nat
  | [] => none
  | c :: rest =>
    if beginsWith "pentru".data (c :: rest) || beginsWith "privind".data (c :: rest)
    then some i
    else findStopAux (i + 1) rest

/-- Leftmost start position of a connector word ("pentru"/"privind"). -/
def findStop (s : List Char) : Option Nat := findStopAux 0 s

/-- Lines 109-114 of `parse`, operating on `publication_text` (the
lower-cased, diacritic-stripped title): the type starts out as "OTHER" and
is recomputed by classifying the text before the first connector word only
when such a connector is found. -/
def publicationTypeOf (publication_text : String) : String :=
  match findStop publication_text.data with
  | some i =>
    guess_initiative_type (String.mk (publication_text.data.take i)) TYPE_RULES
  | none => "OTHER"

/-! ### A small matcher engine for the scraper's regular expressions

The two body-text patterns (`DATE_PATTERN`, line 43, and
`FEEDBACK_DAYS_PATTERN`, line 46) are embedded as executable matchers with
Python `re` semantics: leftmost match, greedy quantifiers with
backtracking, `.` matching anything except a newline, `findall` returning
the text of group 1 of each non-overlapping match, scanning on from the
end of each match. -/

/-- Match a literal character sequence, returning the remainder. -/
def litM (pat : List Char) (s : List Char) : Option (List Char) :=
  match pat, s with
  | [], rest => some rest
  | _ :: _, [] => none
  | p :: ps, c :: cs => if c == p then litM ps cs else none

/-- Python's `.` without `re.DOTALL`: any character except a newline. -/
def dotC (c : Char) : Bool := c != '\n'

/-- The character class `[^[0-9]` of `FEEDBACK_DAYS_PATTERN` (in the
pattern text `[^[0-9]]*`, the first `]` closes the class, so the class is
one unstarred character, followed by a separate starred literal `]`):
anything except `[` or a decimal digit. -/
def clsC (c : Char) : Bool := !(c == '[' || c.isDigit)

/-- Python's `\s` on ASCII text (no `re.UNICODE` flag in effect on these
patterns): space, tab, newline, carriage return, vertical tab, form feed. -/
def pySpace (c : Char) : Bool :=
  c == ' ' || c == '\t' || c == '\n' || c == '\r' || c == '\x0b' || c == '\x0c'

/-- Greedy `p*` before the continuation `k`: consume as many `p`-characters
as possible, backtracking one at a time until `k` succeeds (Python's greedy
star). -/
def starGreedy {α : Type} (p : Char → Bool) (k : List Char → Option α) :
    List Char → Option α
  | [] => k []
  | c :: rest =>
    if p c then
      match starGreedy p k rest with
      | some r => some r
      | none => k (c :: rest)
    else k (c :: rest)

/-- Maximal munch of `p`-characters.  Used for the `\s+` atoms of
`DATE_PATTERN`: there the character following `\s+` in the pattern (a
literal letter or a digit) is never itself a `\s` character, so the greedy
quantifier never needs to backtrack and maximal munch is faithful. -/
def munch (p : Char → Bool) : List Char → List Char
  | [] => []
  | c :: rest => if p c then munch p rest else c :: rest

/-- `\s+` with the determinism caveat of `munch`: at least one whitespace
character, then maximal munch. -/
def spaces1 : List Char → Option (List Char)
  | [] => none
  | c :: rest => if pySpace c then some (munch pySpace rest) else none

/-- Greedy `[0-9]{1,2}` feeding a continuation `k` with the captured
digits: try two digits first, fall back to one (Python's greedy bounded
repetition). -/
def digits12 {α : Type} (k : String → List Char → Option α) :
    List Char → Option α
  | [] => none
  | c1 :: rest1 =>
    if c1.isDigit then
      match rest1 with
      | c2 :: rest2 =>
        if c2.isDigit then
          match k (String.mk [c1, c2]) rest2 with
          | some r => some r
          | none => k (String.mk [c1]) rest1
        else k (String.mk [c1]) rest1
      | [] => k (String.mk [c1]) []
    else none

/-! #### `DATE_PATTERN` (line 43): literal "de", `\s+`, literal "la",
`\s+`, then group 1: `\d{1,2}`, a separator ('-' or '/'), `\d{2}`, a
separator, `\d{4}`. -/

/-- The tail of the date group after the day digits: a separator, exactly
two month digits, a separator, exactly four year digits.  Returns the
matched characters and the remainder. -/
def dateTail (s : List Char) : Option (List Char × List Char) :=
  match s with
  | s1 :: m1 :: m2 :: s2 :: y1 :: y2 :: y3 :: y4 :: rest =>
    if (s1 == '-' || s1 == '/') && m1.isDigit && m2.isDigit
        && (s2 == '-' || s2 == '/') && y1.isDigit && y2.isDigit
        && y3.isDigit && y4.isDigit
    then some ([s1, m1, m2, s2, y1, y2, y3, y4], rest)
    else none
  | _ => none

/-- The capture group of `DATE_PATTERN`: one or two day digits (greedily
two, backtracking to one) followed by `dateTail`. -/
def dateGroup (s : List Char) : Option (String × List Char) :=
  match s with
  | [] => none
  | d1 :: rest1 =>
    if d1.isDigit then
      match rest1 with
      | d2 :: rest2 =>
        if d2.isDigit then
          match dateTail rest2 with
          | some (t, r) => some (String.mk (d1 :: d2 :: t), r)
          | none =>
            (dateTail rest1).map (fun tr => (String.mk (d1 :: tr.1), tr.2))
        else (dateTail rest1).map (fun tr => (String.mk (d1 :: tr.1), tr.2))
      | [] => none
    else none

/-- Attempt to match `DATE_PATTERN` anchored at the start of `s`,
returning group 1 and the remainder after the whole match. -/
def matchDateAt (s : List Char) : Option (String × List Char) := do
  let s ← litM ['d', 'e'] s
  let s ← spaces1 s
  let s ← litM ['l', 'a'] s
  let s ← spaces1 s
  dateGroup s

/-- Scan for all non-overlapping `DATE_PATTERN` matches, left to right
(`re.findall` with one group).  The fuel is the remaining list length;
every step consumes at least one character, so fuel `s.length` performs
the complete scan. -/
def findallDateAux : Nat → List Char → List String
  | 0, _ => []
  | _ + 1, [] => []
  | fuel + 1, c :: rest =>
    match matchDateAt (c :: rest) with
    | some (cap, r) => cap :: findallDateAux fuel r
    | none => findallDateAux fuel rest

/-- Line 119, `DATE_PATTERN.findall(body_text)`. -/
def findallDate (s : List Char) : List String := findallDateAux s.length s

/-! #### `FEEDBACK_DAYS_PATTERN` (line 46):
`termen.*limita.*[^[0-9]]*([0-9]{1,2}).*zi` -/

/-- The pattern suffix `.*zi` after the capture, carrying the capture
through: greedy `.*`, backtracking until the literal "zi" matches. -/
def ziTail (cap : String) : List Char → Option (String × List Char) :=
  starGreedy dotC (fun s => (litM ['z', 'i'] s).map (fun r => (cap, r)))

/-- The pattern suffix after the literal "limita": greedy `.*`, then one
character of the class `[^[0-9]`, then the starred literal `]` (greedy;
deterministic maximal munch is faithful because the following atom is a
digit, never `]`), then the capture `([0-9]{1,2})`, then `.*zi`. -/
def feedClassThenDigits : List Char → Option (String × List Char)
  | [] => none
  | c :: rest =>
    if clsC c then digits12 ziTail (munch (fun x => x == ']') rest)
    else none

/-- The suffix starting with the greedy `.*` after the class position. -/
def feedAfterLimita : List Char → Option (String × List Char) :=
  starGreedy dotC feedClassThenDigits

/-- Attempt to match `FEEDBACK_DAYS_PATTERN` anchored at the start of `s`,
returning group 1 and the remainder after the whole match. -/
def matchFeedbackAt (s : List Char) : Option (String × List Char) := do
  let s ← litM ['t', 'e', 'r', 'm', 'e', 'n'] s
  starGreedy dotC (fun u =>
    match litM ['l', 'i', 'm', 'i', 't', 'a'] u with
    | some v => feedAfterLimita v
    | none => none) s

/-- Scan for all non-overlapping `FEEDBACK_DAYS_PATTERN` matches (as
`findallDateAux`, fuel `s.length` suffices). -/
def findallFeedbackAux : Nat → List Char → List String
  | 0, _ => []
  | _ + 1, [] => []
  | fuel + 1, c :: rest =>
    match matchFeedbackAt (c :: rest) with
    | some (cap, r) => cap :: findallFeedbackAux fuel r
    | none => findallFeedbackAux fuel rest

/-- Line 120, `FEEDBACK_DAYS_PATTERN.findall(body_text)`. -/
def findallFeedback (s : List Char) : List String := findallFeedbackAux s.length s

/-! ### Calendar dates: `datetime.strptime(_, '%d-%m-%Y')`, `timedelta`
addition and `isoformat` (lines 126-127 and 158-165) -/

/-- A proleptic Gregorian calendar date, as held by a Python
`datetime.date`. -/
structure Date where
  year : Nat
  month : Nat
  day : Nat
deriving DecidableEq, Repr

/-- Gregorian leap year rule. -/
def isLeap (y : Nat) : Bool := y % 4 == 0 && (y % 100 != 0 || y % 400 == 0)

/-- Number of days of month `m` of year `y`. -/
def daysInMonth (y m : Nat) : Nat :=
  if m == 2 then (if isLeap y then 29 else 28)
  else if m == 4 || m == 6 || m == 9 || m == 11 then 30
  else 31

/-- Validity of a (year, month, day) triple for Python's `datetime`
constructor: year 1-9999, month 1-12, day within the month. -/
def validDate (y m d : Nat) : Bool :=
  1 ≤ y && y ≤ 9999 && 1 ≤ m && m ≤ 12 && 1 ≤ d && d ≤ daysInMonth y m

/-- The day after a date. -/
def nextDay (dt : Date) : Date :=
  if dt.day < daysInMonth dt.year dt.month then ⟨dt.year, dt.month, dt.day + 1⟩
  else if dt.month < 12 then ⟨dt.year, dt.month + 1, 1⟩
  else ⟨dt.year + 1, 1, 1⟩

/-- A date plus `n` days (unbounded year). -/
def addDays (dt : Date) : Nat → Date
  | 0 => dt
  | n + 1 => nextDay (addDays dt n)

/-- Python `date + timedelta(days = n)` (line 127): day addition, raising
`OverflowError` (modelled `none`) past year 9999, `datetime.MAXYEAR`. -/
def dateAdd (dt : Date) (n : Nat) : Option Date :=
  let r := addDays dt n
  if r.year ≤ 9999 then some r else none

/-- Zero-padded two-digit decimal rendering. -/
def pad2 (n : Nat) : String := if n < 10 then "0" ++ toString n else toString n

/-- Zero-padded four-digit decimal rendering. -/
def pad4 (n : Nat) : String :=
  if n < 10 then "000" ++ toString n
  else if n < 100 then "00" ++ toString n
  else if n < 1000 then "0" ++ toString n
  else toString n

/-- Python `date.isoformat()`: "YYYY-MM-DD". -/
def isoformat (dt : Date) : String :=
  pad4 dt.year ++ "-" ++ pad2 dt.month ++ "-" ++ pad2 dt.day

/-- Up to `k` leading decimal digits of `s` (the digit run consumed by a
bounded `strptime` field), with the remainder. -/
def takeDigitsUpTo : Nat → List Char → List Char × List Char
  | 0, s => ([], s)
  | _ + 1, [] => ([], [])
  | k + 1, c :: rest =>
    if c.isDigit then
      let (ds, r) := takeDigitsUpTo k rest
      (c :: ds, r)
    else ([], c :: rest)

/-- Line 161, `datetime.strptime(date_text, '%d-%m-%Y')`: one or two day
digits, a literal '-', one or two month digits, a literal '-', up to four
year digits, nothing left over; then calendar validation.  `none` is the
`ValueError` raised by `strptime` on non-matching text or an invalid
date. -/
def strptime_dmy (s : String) : Option Date :=
  match takeDigitsUpTo 2 s.data with
  | ([], _) => none
  | (ds, r1) =>
    match r1 with
    | '-' :: r2 =>
      match takeDigitsUpTo 2 r2 with
      | ([], _) => none
      | (ms, r3) =>
        match r3 with
        | '-' :: r4 =>
          match takeDigitsUpTo 4 r4 with
          | ([], _) => none
          | (ys, r5) =>
            if r5.isEmpty then
              let d := natOfDigits ds
              let m := natOfDigits ms
              let y := natOfDigits ys
              if validDate y m d then some ⟨y, m, d⟩ else none
            else none
        | _ => none
    | _ => none

/-- Lines 158-165, `SanatateSpider.parse_date`.  The function returns from
the first loop iteration.  When `strptime` succeeds it returns the pair
(ISO date string, date object).  When `strptime` raises `ValueError`, the
handler sets `date = None` but `date_obj` was never assigned, so the
`return date, date_obj` raises an uncaught `UnboundLocalError` — modelled
`none`.  (On an empty list Python would fall off the loop and return
`None`, making the caller's tuple unpacking raise; also `none`.  The
caller guards against that case.) -/
def parse_date (text : List String) : Option (String × Date) :=
  match text with
  | [] => none
  | date_text :: _ =>
    match strptime_dmy date_text with
    | some dobj => some (isoformat dobj, dobj)
    | none => none

/-! ### MD5 (RFC 1321), for `hashlib.md5(title).hexdigest()` (line 91)

`hashlib` is a third-party dependency of the scraper; the algorithm is
implemented here in full over byte lists, with 32-bit words as `Nat`
reduced modulo `2 ^ 32`. -/

/-- Addition modulo `2 ^ 32`. -/
def add32 (a b : Nat) : Nat := (a + b) % 4294967296

/-- Bitwise complement on 32-bit words. -/
def not32 (x : Nat) : Nat := Nat.xor x 4294967295

/-- Left rotation of a 32-bit word. -/
def rotl32 (x s : Nat) : Nat :=
  Nat.lor ((x <<< s) % 4294967296) (x >>> (32 - s))

/-- The 64 sine-derived constants of MD5. -/
def md5K : List Nat :=
  [ 0xd76aa478, 0xe8c7b756, 0x242070db, 0xc1bdceee,
    0xf57c0faf, 0x4787c62a, 0xa8304613, 0xfd469501,
    0x698098d8, 0x8b44f7af, 0xffff5bb1, 0x895cd7be,
    0x6b901122, 0xfd987193, 0xa679438e, 0x49b40821,
    0xf61e2562, 0xc040b340, 0x265e5a51, 0xe9b6c7aa,
    0xd62f105d, 0x02441453, 0xd8a1e681, 0xe7d3fbc8,
    0x21e1cde6, 0xc33707d6, 0xf4d50d87, 0x455a14ed,
    0xa9e3e905, 0xfcefa3f8, 0x676f02d9, 0x8d2a4c8a,
    0xfffa3942, 0x8771f681, 0x6d9d6122, 0xfde5380c,
    0xa4beea44, 0x4bdecfa9, 0xf6bb4b60, 0xbebfbc70,
    0x289b7ec6, 0xeaa127fa, 0xd4ef3085, 0x04881d05,
    0xd9d4d039, 0xe6db99e5, 0x1fa27cf8, 0xc4ac5665,
    0xf4292244, 0x432aff97, 0xab9423a7, 0xfc93a039,
    0x655b59c3, 0x8f0ccc92, 0xffeff47d, 0x85845dd1,
    0x6fa87e4f, 0xfe2ce6e0, 0xa3014314, 0x4e0811a1,
    0xf7537e82, 0xbd3af235, 0x2ad7d2bb, 0xeb86d391 ]

/-- The 64 per-round left-rotation amounts of MD5. -/
def md5S : List Nat :=
  [ 7, 12, 17, 22, 7, 12, 17, 22, 7, 12, 17, 22, 7, 12, 17, 22,
    5, 9, 14, 20, 5, 9, 14, 20, 5, 9, 14, 20, 5, 9, 14, 20,
    4, 11, 16, 23, 4, 11, 16, 23, 4, 11, 16, 23, 4, 11, 16, 23,
    6, 10, 15, 21, 6, 10, 15, 21, 6, 10, 15, 21, 6, 10, 15, 21 ]

/-- One MD5 round: state (A, B, C, D), round index `i`, message words
`Mw`. -/
def md5Round (Mw : List Nat) (st : Nat × Nat × Nat × Nat) (i : Nat) :
    Nat × Nat × Nat × Nat :=
  let a := st.1
  let b := st.2.1
  let c := st.2.2.1
  let d := st.2.2.2
  let fg : Nat × Nat :=
    if i < 16 then (Nat.lor (Nat.land b c) (Nat.land (not32 b) d), i)
    else if i < 32 then (Nat.lor (Nat.land b d) (Nat.land c (not32 d)), (5 * i + 1) % 16)
    else if i < 48 then (Nat.xor b (Nat.xor c d), (3 * i + 5) % 16)
    else (Nat.xor c (Nat.lor b (not32 d)), (7 * i) % 16)
  let tmp := add32 (add32 (add32 a fg.1) (md5K.getD i 0)) (Mw.getD fg.2 0)
  (d, add32 b (rotl32 tmp (md5S.getD i 0)), b, c)

/-- Little-endian byte rendering of `n` on `k` bytes. -/
def toLEBytes : Nat → Nat → List Nat
  | 0, _ => []
  | k + 1, n => n % 256 :: toLEBytes k (n / 256)

/-- Group a 64-byte chunk into sixteen little-endian 32-bit words. -/
def leWords : List Nat → List Nat
  | b0 :: b1 :: b2 :: b3 :: rest =>
    (b0 + 256 * b1 + 65536 * b2 + 16777216 * b3) :: leWords rest
  | _ => []

/-- MD5 padding: a `0x80` byte, zero bytes up to 56 modulo 64, then the
original bit length on eight little-endian bytes. -/
def md5Pad (msg : List Nat) : List Nat :=
  let len := msg.length
  let r := len % 64
  let zeros := if r ≤ 55 then 55 - r else 119 - r
  msg ++ [128] ++ List.replicate zeros 0 ++ toLEBytes 8 (len * 8)

/-- Process the padded message 64 bytes at a time (the fuel is the byte
count, an upper bound on the chunk count). -/
def md5Process : Nat → List Nat → Nat × Nat × Nat × Nat → Nat × Nat × Nat × Nat
  | 0, _, st => st
  | _ + 1, [], st => st
  | fuel + 1, bytes, st =>
    let Mw := leWords (bytes.take 64)
    let r := (List.range 64).foldl (md5Round Mw) st
    md5Process fuel (bytes.drop 64)
      (add32 st.1 r.1, add32 st.2.1 r.2.1, add32 st.2.2.1 r.2.2.1,
        add32 st.2.2.2 r.2.2.2)

/-- Lowercase hexadecimal digit. -/
def hexDigit (n : Nat) : Char :=
  if n < 10 then Char.ofNat (48 + n) else Char.ofNat (87 + n)

/-- Two lowercase hexadecimal digits of a byte. -/
def byteHex (b : Nat) : List Char := [hexDigit (b / 16), hexDigit (b % 16)]

/-- MD5 digest of a byte list, rendered as `hexdigest()` does. -/
def md5hexBytes (msg : List Nat) : String :=
  let padded := md5Pad msg
  let st := md5Process padded.length padded
    (0x67452301, 0xefcdab89, 0x98badcfe, 0x10325476)
  String.mk
    (((toLEBytes 4 st.1 ++ toLEBytes 4 st.2.1 ++ toLEBytes 4 st.2.2.1
        ++ toLEBytes 4 st.2.2.2).map byteHex).flatten)

/-- `hashlib.md5(title).hexdigest()` on the scraper's titles.  At the call
site the title has already been diacritic-stripped, so it is ASCII and the
Python 2 implicit ASCII encoding of the unicode string is the code-point
byte sequence. -/
def md5hex (s : String) : String := md5hexBytes (s.data.map Char.toNat)

/-- Lines 90-91, `identify(title, url)`:
`" : ".join([url, hashlib.md5(title).hexdigest()])`. -/
def identify (title url : String) : String := url ++ " : " ++ md5hex title

/-! ### DocumentLinker (lines 129-133), RecordAssembler (`parse`, lines
100-148) and PaginationController (lines 150-156) -/

/-- One list element of line 132, `[types[i], urls[i]]`: `none` is the
`IndexError` raised when an index is out of range. -/
def docAt (types urls : List String) (i : Nat) : Option (String × String) :=
  match types[i]?, urls[i]? with
  | some t, some u => some (t, u)
  | _, _ => none

/-- The list comprehension of line 132 over a list of indices. -/
def mkDocsGo (types urls : List String) : List Nat → Option (List (String × String))
  | [] => some []
  | i :: is => do
    let d ← docAt types urls i
    let rest ← mkDocsGo types urls is
    pure (d :: rest)

/-- Lines 132-133: `docs = [[types[i], urls[i]] for i in range(len(types))]`
followed by `dict(zip(['type', 'url'], doc))` for each pair.  The pairing
is positional (anchor text, anchor href); a `none` result is the uncaught
`IndexError` raised when `urls` is shorter than `types`. -/
def mkDocs (types urls : List String) : Option (List (String × String)) :=
  mkDocsGo types urls (List.range types.length)

/-- One listing block of a page, as already extracted from the HTML tree
by the external query collaborator (spec §6):

* `title` — `item.css('a.panel-title::text').extract_first().strip()`
  (line 105), after the external `.strip()`;
* `body_text` — `''.join(body.xpath('.//text()').extract()).lower()`
  (line 103), after the external `.lower()`;
* `doc_labels` / `doc_urls` — texts and hrefs of the body anchors whose
  `@href` contains ".pdf" (lines 130-131). -/
structure Block where
  title : String
  body_text : String
  doc_labels : List String
  doc_urls : List String
deriving DecidableEq, Repr

/-- The `Publication` item (lines 78-88, populated at lines 135-146).
`documents` keeps the ordered (label, url) pairs, whose `json.dumps`
serialization at the sink boundary is not modelled; the `contact` field
(an email / phone harvest that cannot fail and that no claim concerns) is
likewise left at the sink boundary. -/
structure Publication where
  institution : String
  identifier : String
  type : String
  date : Option String
  title : String
  description : String
  documents : List (String × String)
  feedback_days : Nat
  max_feedback_date : Option String
deriving DecidableEq, Repr

/-- Lines 123-127: `date, feedback_date = None, None`, recomputed when the
date pattern matched.  In the match branch `parse_date` either raises
(`none`, see `parse_date`) or returns an ISO date string and a date
object, from which `feedback_date` is derived by `timedelta` addition
(which raises past year 9999). -/
def dateAndDeadline (text_date : List String) (feedback_days : Nat) :
    Option (Option String × Option String) :=
  match text_date with
  | [] => some (none, none)
  | _ :: _ =>
    (parse_date text_date).bind fun pd =>
      (dateAdd pd.2 feedback_days).map fun fdd =>
        (some pd.1, some (isoformat fdd))

/-- The per-block body of `SanatateSpider.parse` (lines 100-148), from one
extracted `Block` to the `Publication` handed to
`scraperwiki.sqlite.save`.  `none` is an uncaught exception aborting the
block (and with it the enclosing page callback) before any save of this
block's record.  Steps, in source order:  title diacritic-stripping (line
106), type detection on the lower-cased title (lines 109-114; the
stripped title is ASCII, where `String.toLower` agrees with Python's
`.lower()`), the two body-text pattern scans (lines 119-120), the
mandatory `int(text_feedback_days[0])` (line 121, `IndexError` when the
scan found nothing), date and deadline (lines 123-127), document pairing
(lines 129-133), and record construction (lines 135-146). -/
def parseBlock (response_url : String) (b : Block) : Option Publication := do
  let title := strip_diacritics b.title
  let publication_type := publicationTypeOf title.toLower
  let text_date := findallDate b.body_text.data
  let text_feedback_days := findallFeedback b.body_text.data
  let tfd ← text_feedback_days.head?
  let feedback_days := natOfDigits tfd.data
  let dd ← dateAndDeadline text_date feedback_days
  let documents ← mkDocs b.doc_labels b.doc_urls
  pure
    { institution := "sanatate"
      identifier := identify title response_url
      type := publication_type
      date := dd.1
      title := title
      description := strip_diacritics b.body_text
      documents := documents
      feedback_days := feedback_days
      max_feedback_date := dd.2 }

/-- The per-page loop over blocks (lines 100-148): records are saved one
by one; an uncaught per-block exception aborts the loop, so the records
saved are exactly those of the blocks before the first failing one.  The
boolean records whether a block raised. -/
def pageSaves (response_url : String) : List Block → List Publication × Bool
  | [] => ([], false)
  | b :: rest =>
    match parseBlock response_url b with
    | none => ([], true)
    | some pub =>
      let r := pageSaves response_url rest
      (pub :: r.1, r.2)

/-- Python's `str.replace` (all occurrences, left to right,
non-overlapping), by fuel on the scanned length.  The guard on an empty
pattern never fires at the call site (the pattern is the decimal rendering
of a page number). -/
def pyReplaceAux (old new : List Char) : Nat → List Char → List Char
  | 0, s => s
  | _ + 1, [] => []
  | fuel + 1, c :: rest =>
    if !old.isEmpty && beginsWith old (c :: rest) then
      new ++ pyReplaceAux old new fuel (rest.drop (old.length - 1))
    else c :: pyReplaceAux old new fuel rest

/-- Python `s.replace(old, new)`. -/
def pyReplace (s old new : String) : String :=
  String.mk (pyReplaceAux old.data new.data s.data.length s.data)

/-- Lines 150-156, the pagination decision: with the two page-metadata
integers `current_page` and `total_pages`, when `current_page <
total_pages` exactly one request is yielded, for the current URL with the
decimal rendering of the current page number replaced by that of
`current_page + 1`; otherwise the callback ends and no request is
yielded (`none`). -/
def paginate (url : String) (current_page total_pages : Int) : Option String :=
  let next_page := current_page + 1
  if current_page < total_pages then
    some (pyReplace url (toString current_page) (toString next_page))
  else none

/-! ### Concrete inputs used by witnesses and counterexamples -/

/-- Shape of a `DATE_PATTERN` capture: one or two day digits, a separator
('-' or '/'), exactly two month digits, a separator, exactly four year
digits. -/
def isDateSep (c : Char) : Bool := c == '-' || c == '/'

/-- Boolean recogniser for the shape of group 1 of `DATE_PATTERN`. -/
def dateCapShape (cap : String) : Bool :=
  match cap.data with
  | [d1, s1, m1, m2, s2, y1, y2, y3, y4] =>
    d1.isDigit && isDateSep s1 && m1.isDigit && m2.isDigit && isDateSep s2
      && y1.isDigit && y2.isDigit && y3.isDigit && y4.isDigit
  | [d1, d2, s1, m1, m2, s2, y1, y2, y3, y4] =>
    d1.isDigit && d2.isDigit && isDateSep s1 && m1.isDigit && m2.isDigit
      && isDateSep s2 && y1.isDigit && y2.isDigit && y3.isDigit && y4.isDigit
  | _ => false

/-- A block whose located date text "30-02-2020" fails calendar parsing
(February the 30th). -/
def blockC2 : Block :=
  { title := "Ordin de ministru"
    body_text := "afisat de la 30-02-2020 termen limita 5 zile"
    doc_labels := []
    doc_urls := [] }

/-- A block whose body text contains no feedback-window figure. -/
def blockC3 : Block :=
  { title := "Lege privind ceva"
    body_text := "afisat de la 05-03-2020 pana la 15-03-2020"
    doc_labels := ["A"]
    doc_urls := ["u1"] }

/-- A block with a valid date and a ten-day feedback window. -/
def blockC4 : Block :=
  { title := "Lege privind ceva"
    body_text := "afisat de la 05-03-2020 in termen limita de 10 zile"
    doc_labels := []
    doc_urls := [] }

/-- A block whose title carries a Romanian diacritic. -/
def blockC5a : Block :=
  { title := "Lege privind țara"
    body_text := "termen limita 5 zile"
    doc_labels := []
    doc_urls := [] }

/-- The same block with the diacritic replaced by its base letter: the two
titles differ only in diacritics. -/
def blockC5b : Block :=
  { title := "Lege privind tara"
    body_text := "termen limita 5 zile"
    doc_labels := []
    doc_urls := [] }

/-- A block whose body text states a three-digit day count. -/
def blockC10 : Block :=
  { title := "Lege privind ceva"
    body_text := "termen limita 120 zile"
    doc_labels := []
    doc_urls := [] }

/-- ASCII-only character lists (every code point below 128). -/
def allASCII (s : List Char) : Bool := s.all (fun c => c.toNat < 128)

/-! ## Supporting lemmas -/

theorem docAt_succ (t u : String) (ts us : List String) (i : Nat) :
    docAt (t :: ts) (u :: us) (i + 1) = docAt ts us i := by
  simp [docAt]

theorem mkDocsGo_map_succ (t u : String) (ts us : List String) (is : List Nat) :
    mkDocsGo (t :: ts) (u :: us) (is.map Nat.succ) = mkDocsGo ts us is := by
  induction is with
  | nil => rfl
  | cons i is ih => simp only [List.map_cons, mkDocsGo, docAt_succ, ih]

theorem mkDocs_nil_left (urls : List String) : mkDocs [] urls = some [] := rfl

theorem mkDocs_cons_nil (t : String) (ts : List String) :
    mkDocs (t :: ts) [] = none := by
  simp [mkDocs, List.range_succ_eq_map, mkDocsGo, docAt]

theorem mkDocs_cons_cons (t u : String) (ts us : List String) :
    mkDocs (t :: ts) (u :: us) = (mkDocs ts us).map (fun l => (t, u) :: l) := by
  show mkDocsGo _ _ (List.range (ts.length + 1)) = _
  rw [List.range_succ_eq_map]
  simp only [mkDocsGo, mkDocsGo_map_succ]
  cases h : mkDocsGo ts us (List.range ts.length) <;>
    simp [docAt, mkDocs, h]

theorem pageSaves_append_none (url : String) (b : Block) (post : List Block)
    (hb : parseBlock url b = none) :
    ∀ pre : List Block,
      pageSaves url (pre ++ b :: post) = ((pageSaves url pre).1, true)
  | [] => by simp [pageSaves, hb]
  | p :: pre => by
    cases hp : parseBlock url p with
    | none => simp [pageSaves, hp]
    | some pub =>
      simp [pageSaves, hp, pageSaves_append_none url b post hb pre]

theorem parseBlock_inv (url : String) (b : Block) (pub : Publication)
    (h : parseBlock url b = some pub) :
    ∃ tfd dd documents,
      (findallFeedback b.body_text.data).head? = some tfd ∧
      dateAndDeadline (findallDate b.body_text.data) (natOfDigits tfd.data) = some dd ∧
      mkDocs b.doc_labels b.doc_urls = some documents ∧
      pub = { institution := "sanatate"
              identifier := identify (strip_diacritics b.title) url
              type := publicationTypeOf (strip_diacritics b.title).toLower
              date := dd.1
              title := strip_diacritics b.title
              description := strip_diacritics b.body_text
              documents := documents
              feedback_days := natOfDigits tfd.data
              max_feedback_date := dd.2 } := by
  simp only [parseBlock, Option.bind_eq_bind', Option.bind_eq_some',
    Option.pure_def, Option.some.injEq] at h
  obtain ⟨tfd, h1, dd, h2, docs, h3, h4⟩ := h
  exact ⟨tfd, dd, docs, h1, h2, h3, h4.symm⟩

theorem parse_date_iso (l : List String) (pd : String × Date)
    (h : parse_date l = some pd) : pd.1 = isoformat pd.2 := by
  cases l with
  | nil => simp [parse_date] at h
  | cons a rest =>
    simp only [parse_date] at h
    cases hs : strptime_dmy a with
    | none => rw [hs] at h; exact absurd h (by simp)
    | some dobj => rw [hs] at h; cases h; rfl

theorem dateAndDeadline_inv (td : List String) (fd : Nat)
    (dd : Option String × Option String)
    (h : dateAndDeadline td fd = some dd) :
    dd = (none, none) ∨
      ∃ d fdd, dateAdd d fd = some fdd ∧
        dd = (some (isoformat d), some (isoformat fdd)) := by
  cases td with
  | nil => left; simpa [dateAndDeadline] using h.symm
  | cons a rest =>
    right
    simp only [dateAndDeadline, Option.bind_eq_some', Option.map_eq_some'] at h
    obtain ⟨pd, hpd, fdd, hadd, hdd⟩ := h
    refine ⟨pd.2, fdd, hadd, ?_⟩
    rw [← hdd, parse_date_iso _ _ hpd]

theorem starGreedy_inv {α : Type} (p : Char → Bool) (k : List Char → Option α)
    (r : α) : ∀ s : List Char, starGreedy p k s = some r →
      ∃ t : List Char, k t = some r
  | [], h => ⟨[], h⟩
  | c :: rest, h => by
    rw [starGreedy] at h
    by_cases hp : p c
    · rw [if_pos hp] at h
      cases hr : starGreedy p k rest with
      | some v => rw [hr] at h; cases h; exact starGreedy_inv p k r rest hr
      | none => rw [hr] at h; exact ⟨c :: rest, h⟩
    · rw [if_neg hp] at h
      exact ⟨c :: rest, h⟩

theorem digits12_inv {α : Type} (k : String → List Char → Option α) (r : α)
    (s : List Char) (h : digits12 k s = some r) :
    ∃ cap t, (cap.data.all Char.isDigit = true ∧ 1 ≤ cap.data.length ∧
      cap.data.length ≤ 2) ∧ k cap t = some r := by
  cases s with
  | nil => exact absurd h (by simp [digits12])
  | cons c1 rest1 =>
    rw [digits12.eq_def] at h
    simp only [] at h
    by_cases h1 : c1.isDigit
    · rw [if_pos h1] at h
      cases rest1 with
      | nil => exact ⟨String.mk [c1], [], by simp [h1], h⟩
      | cons c2 rest2 =>
        simp only [] at h
        by_cases h2 : c2.isDigit
        · rw [if_pos h2] at h
          cases hk : k (String.mk [c1, c2]) rest2 with
          | some v =>
            rw [hk] at h; cases h
            exact ⟨String.mk [c1, c2], rest2, by simp [h1, h2], hk⟩
          | none =>
            rw [hk] at h
            exact ⟨String.mk [c1], c2 :: rest2, by simp [h1], h⟩
        · rw [if_neg h2] at h
          exact ⟨String.mk [c1], c2 :: rest2, by simp [h1], h⟩
    · rw [if_neg h1] at h
      exact absurd h (by simp)

theorem ziTail_inv (cap : String) (s : List Char) (pr : String × List Char)
    (h : ziTail cap s = some pr) : pr.1 = cap := by
  obtain ⟨t, ht⟩ := starGreedy_inv _ _ _ s h
  cases hl : litM ['z', 'i'] t with
  | none => rw [hl] at ht; exact absurd ht (by simp)
  | some rest => rw [hl] at ht; cases ht; rfl

theorem feedAfterLimita_cap (s : List Char) (pr : String × List Char)
    (h : feedAfterLimita s = some pr) :
    pr.1.data.all Char.isDigit = true ∧ 1 ≤ pr.1.data.length ∧
      pr.1.data.length ≤ 2 := by
  obtain ⟨t, ht⟩ := starGreedy_inv _ _ _ s h
  cases t with
  | nil => exact absurd ht (by simp [feedClassThenDigits])
  | cons c rest =>
    rw [feedClassThenDigits] at ht
    by_cases hc : clsC c
    · rw [if_pos hc] at ht
      obtain ⟨cap, u, hcap, hk⟩ := digits12_inv _ _ _ ht
      rw [← ziTail_inv _ _ _ hk] at hcap
      exact hcap
    · rw [if_neg hc] at ht
      exact absurd ht (by simp)

theorem matchFeedbackAt_cap (s : List Char) (pr : String × List Char)
    (h : matchFeedbackAt s = some pr) :
    pr.1.data.all Char.isDigit = true ∧ 1 ≤ pr.1.data.length ∧
      pr.1.data.length ≤ 2 := by
  simp only [matchFeedbackAt, Option.bind_eq_bind', Option.bind_eq_some'] at h
  obtain ⟨s1, _, hstar⟩ := h
  obtain ⟨t, ht⟩ := starGreedy_inv _ _ _ s1 hstar
  cases hl : litM ['l', 'i', 'm', 'i', 't', 'a'] t with
  | none => rw [hl] at ht; exact absurd ht (by simp)
  | some v => rw [hl] at ht; exact feedAfterLimita_cap _ _ ht

theorem findallFeedbackAux_mem (cap : String) :
    ∀ (fuel : Nat) (s : List Char), cap ∈ findallFeedbackAux fuel s →
      ∃ s0 pr, matchFeedbackAt s0 = some pr ∧ pr.1 = cap
  | 0, _, h => absurd h (by simp [findallFeedbackAux])
  | _ + 1, [], h => absurd h (by simp [findallFeedbackAux])
  | fuel + 1, c :: rest, h => by
    rw [findallFeedbackAux] at h
    cases hm : matchFeedbackAt (c :: rest) with
    | some pr =>
      rw [hm] at h
      rcases List.mem_cons.mp h with heq | hmem
      · exact ⟨c :: rest, pr, hm, heq.symm⟩
      · exact findallFeedbackAux_mem cap fuel pr.2 hmem
    | none =>
      rw [hm] at h
      exact findallFeedbackAux_mem cap fuel rest h

theorem findallFeedback_cap (s : List Char) (cap : String)
    (h : cap ∈ findallFeedback s) :
    cap.data.all Char.isDigit = true ∧ 1 ≤ cap.data.length ∧
      cap.data.length ≤ 2 := by
  obtain ⟨s0, pr, hm, hcap⟩ := findallFeedbackAux_mem cap s.length s h
  rw [← hcap]
  exact matchFeedbackAt_cap _ _ hm

theorem natOfDigits_le_99 (l : List Char)
    (hd : l.all Char.isDigit = true) (hl : l.length ≤ 2) :
    natOfDigits l ≤ 99 := by
  have hdig : ∀ c : Char, c.isDigit = true → c.toNat - 48 ≤ 9 := by
    intro c hc
    simp only [Char.isDigit, Bool.and_eq_true, decide_eq_true_eq] at hc
    have h2 : c.toNat ≤ 57 := hc.2
    omega
  cases l with
  | nil => exact Nat.zero_le 99
  | cons a t =>
    cases t with
    | nil =>
      have ha := hdig a (by simpa using hd)
      simp only [natOfDigits, List.foldl]
      omega
    | cons b t2 =>
      cases t2 with
      | nil =>
        simp only [List.all_cons, Bool.and_eq_true, List.all_nil] at hd
        have ha := hdig a hd.1
        have hb := hdig b hd.2.1
        simp only [natOfDigits, List.foldl]
        omega
      | cons c t3 => simp at hl

theorem dateTail_shape (s t r : List Char) (h : dateTail s = some (t, r)) :
    ∃ s1 m1 m2 s2 y1 y2 y3 y4,
      t = [s1, m1, m2, s2, y1, y2, y3, y4] ∧
      (isDateSep s1 && m1.isDigit && m2.isDigit && isDateSep s2
        && y1.isDigit && y2.isDigit && y3.isDigit && y4.isDigit) = true := by
  unfold dateTail at h
  split at h
  case h_1 s1 m1 m2 s2 y1 y2 y3 y4 rest =>
    split at h
    case isTrue hc =>
      obtain ⟨ht, hr⟩ := Prod.mk.injEq .. ▸ Option.some.injEq .. ▸ h
      refine ⟨s1, m1, m2, s2, y1, y2, y3, y4, ht.symm, ?_⟩
      simp only [isDateSep]
      simp only [Bool.and_eq_true] at hc ⊢
      exact hc
    case isFalse _ => exact absurd h (by simp)
  case h_2 => exact absurd h (by simp)

theorem dateGroup_shape (s : List Char) (pr : String × List Char)
    (h : dateGroup s = some pr) : dateCapShape pr.1 = true := by
  cases s with
  | nil => exact absurd h (by simp [dateGroup])
  | cons d1 rest1 =>
    rw [dateGroup.eq_def] at h
    simp only [] at h
    by_cases h1 : d1.isDigit
    · rw [if_pos h1] at h
      cases rest1 with
      | nil => exact absurd h (by simp)
      | cons d2 rest2 =>
        simp only [] at h
        by_cases h2 : d2.isDigit
        · rw [if_pos h2] at h
          cases ht2 : dateTail rest2 with
          | some tr =>
            obtain ⟨t, r⟩ := tr
            rw [ht2] at h
            obtain ⟨s1, m1, m2, s2, y1, y2, y3, y4, hteq, hbool⟩ :=
              dateTail_shape _ _ _ ht2
            cases h
            subst hteq
            simp only [Bool.and_eq_true] at hbool
            simp [dateCapShape, h1, h2, hbool]
          | none =>
            rw [ht2, Option.map_eq_some'] at h
            obtain ⟨⟨t, r⟩, ht1, hpr⟩ := h
            obtain ⟨s1, m1, m2, s2, y1, y2, y3, y4, hteq, hbool⟩ :=
              dateTail_shape _ _ _ ht1
            subst hpr
            subst hteq
            simp only [Bool.and_eq_true] at hbool
            simp [dateCapShape, h1, hbool]
        · rw [if_neg h2, Option.map_eq_some'] at h
          obtain ⟨⟨t, r⟩, ht1, hpr⟩ := h
          obtain ⟨s1, m1, m2, s2, y1, y2, y3, y4, hteq, hbool⟩ :=
            dateTail_shape _ _ _ ht1
          subst hpr
          subst hteq
          simp only [Bool.and_eq_true] at hbool
          simp [dateCapShape, h1, hbool]
    · rw [if_neg h1] at h
      exact absurd h (by simp)

theorem matchDateAt_shape (s : List Char) (pr : String × List Char)
    (h : matchDateAt s = some pr) : dateCapShape pr.1 = true := by
  simp only [matchDateAt, Option.bind_eq_bind', Option.bind_eq_some'] at h
  obtain ⟨a, _, b, _, c, _, d, _, hd⟩ := h
  exact dateGroup_shape _ _ hd

theorem findallDateAux_mem (cap : String) :
    ∀ (fuel : Nat) (s : List Char), cap ∈ findallDateAux fuel s →
      ∃ s0 pr, matchDateAt s0 = some pr ∧ pr.1 = cap
  | 0, _, h => absurd h (by simp [findallDateAux])
  | _ + 1, [], h => absurd h (by simp [findallDateAux])
  | fuel + 1, c :: rest, h => by
    rw [findallDateAux] at h
    cases hm : matchDateAt (c :: rest) with
    | some pr =>
      rw [hm] at h
      rcases List.mem_cons.mp h with heq | hmem
      · exact ⟨c :: rest, pr, hm, heq.symm⟩
      · exact findallDateAux_mem cap fuel pr.2 hmem
    | none =>
      rw [hm] at h
      exact findallDateAux_mem cap fuel rest h

theorem unidecodeChar_ascii (c : Char) : allASCII (unidecodeChar c) = true := by
  unfold unidecodeChar
  split_ifs with h <;> simp_all [allASCII]

theorem unidecodeChar_of_ascii (c : Char) (h : c.toNat < 128) :
    unidecodeChar c = [c] := by
  unfold unidecodeChar
  rw [if_pos h]

theorem unidecodeStr_ascii (s : List Char) : allASCII (unidecodeStr s) = true := by
  induction s with
  | nil => rfl
  | cons c rest ih =>
    have hc := unidecodeChar_ascii c
    simp only [unidecodeStr, allASCII, List.all_append, Bool.and_eq_true]
    exact ⟨hc, ih⟩

theorem unidecodeStr_of_ascii (s : List Char) (h : allASCII s = true) :
    unidecodeStr s = s := by
  induction s with
  | nil => rfl
  | cons c rest ih =>
    simp only [allASCII, List.all_cons, Bool.and_eq_true, decide_eq_true_eq] at h
    rw [unidecodeStr, unidecodeChar_of_ascii c h.1, ih h.2]
    rfl

theorem subCharClass_of_ascii (cls : List Char) (repl : Char) (s : List Char)
    (hcls : ∀ x ∈ cls, 128 ≤ x.toNat) (hs : allASCII s = true) :
    ∀ count : Nat, subCharClass cls repl count s = s := by
  induction s with
  | nil => intro count; cases count <;> rfl
  | cons c rest ih =>
    intro count
    simp only [allASCII, List.all_cons, Bool.and_eq_true, decide_eq_true_eq] at hs
    have hmem : cls.contains c = false := by
      by_contra hcon
      have : c ∈ cls := by
        have := Bool.of_not_eq_false hcon
        simpa [List.elem_iff] using this
      have := hcls c this
      omega
    cases count with
    | zero => rfl
    | succ n =>
      rw [subCharClass, hmem]
      simp only [Bool.false_eq_true, if_false]
      rw [ih hs.2 (n + 1)]

theorem foldRules_of_ascii (rules : List (List Char × Char)) (s : List Char)
    (hr : ∀ r ∈ rules, ∀ x ∈ r.1, 128 ≤ x.toNat) (hs : allASCII s = true) :
    rules.foldl (fun acc rule => subCharClass rule.1 rule.2 32 acc) s = s := by
  induction rules with
  | nil => rfl
  | cons r rs ih =>
    rw [List.foldl_cons,
      subCharClass_of_ascii r.1 r.2 s (hr r (List.mem_cons_self r rs)) hs 32]
    exact ih (fun q hq => hr q (List.mem_cons_of_mem r hq))

theorem strip_diacritics_ascii (text : String) :
    allASCII (strip_diacritics text).data = true := by
  unfold strip_diacritics
  simpa using unidecodeStr_ascii _

theorem strip_diacritics_of_ascii (text : String) (h : allASCII text.data = true) :
    strip_diacritics text = text := by
  show String.mk (unidecodeStr (DIACRITICS_RULES.foldl
    (fun acc rule => subCharClass rule.1 rule.2 32 acc) text.data)) = text
  rw [foldRules_of_ascii DIACRITICS_RULES text.data (by decide) h,
    unidecodeStr_of_ascii text.data h]

/-! ## Claim theorems -/

/-- C1, counterexample.  The claim states that `labels = ["A", "B", "C"]`
with `urls = ["u1", "u2"]` yields exactly the pairs (A, u1), (B, u2) and
that pairing always truncates to the shorter sequence.  In the code the
comprehension iterates over `range(len(types))` and indexes `urls[i]`, so
this input raises an uncaught `IndexError` (`none`) instead of producing
the two pairs. -/
theorem C1_counterexample :
    mkDocs ["A", "B", "C"] ["u1", "u2"] = none ∧
      mkDocs ["A", "B", "C"] ["u1", "u2"] ≠ some [("A", "u1"), ("B", "u2")] := by
  decide

/-- C1, amended.  Document pairing is positional over the label indices:
when there are at least as many urls as labels, the result pairs label i
with url i and silently drops the trailing unmatched urls; when there are
fewer urls than labels, the pairing raises an uncaught index error for
that block instead of truncating. -/
theorem C1_amended (types urls : List String) :
    (types.length ≤ urls.length → mkDocs types urls = some (types.zip urls)) ∧
    (urls.length < types.length → mkDocs types urls = none) := by
  induction types generalizing urls with
  | nil =>
    refine ⟨fun _ => mkDocs_nil_left urls, fun h => absurd h (by simp)⟩
  | cons t ts ih =>
    cases urls with
    | nil =>
      refine ⟨fun h => absurd h (by simp), fun _ => mkDocs_cons_nil t ts⟩
    | cons u us =>
      refine ⟨fun h => ?_, fun h => ?_⟩
      · rw [mkDocs_cons_cons, (ih us).1 (by simpa using h)]
        rfl
      · rw [mkDocs_cons_cons, (ih us).2 (by simpa using h)]
        rfl

/-- C1, witness: with two labels and three urls the pairing truncates to
the two labels (trailing url dropped); with three labels and two urls it
raises. -/
theorem C1_witness :
    mkDocs ["A", "B"] ["u1", "u2", "u3"] = some [("A", "u1"), ("B", "u2")] ∧
      mkDocs ["A", "B", "C"] ["u1", "u2"] = none := by
  constructor
  · have h := (C1_amended ["A", "B"] ["u1", "u2", "u3"]).1 (by decide)
    simpa using h
  · exact (C1_amended ["A", "B", "C"] ["u1", "u2"]).2 (by decide)

/-- C2 (code bug).  For a located date text that fails strict
day-month-year parsing, the claim (and the spec, backed by the
`except ValueError: date = None` handler) says the date becomes absent and
the block continues.  In the code the handler then executes
`return date, date_obj` with `date_obj` never assigned, so the block dies
of an uncaught `UnboundLocalError`: here, evaluating the embedded code on
the block whose body text contains "de la 30-02-2020" (February the 30th)
shows the block aborts (`none`) rather than assembling a dateless
record. -/
theorem C2_eval :
    parse_date ["30-02-2020"] = none ∧
      parseBlock "http://u" blockC2 = none := by
  decide

/-- C3.  When the body text contains no feedback-window figure (the
"days" pattern scan returns no match), `int(text_feedback_days[0])`
raises an uncaught `IndexError`: the block's record is never assembled
(`parseBlock` is `none`), and the page loop saves exactly the records of
the blocks preceding it while reporting the error. -/
theorem C3_no_days_fatal (url : String) (b : Block) (pre post : List Block)
    (h : findallFeedback b.body_text.data = []) :
    parseBlock url b = none ∧
      pageSaves url (pre ++ b :: post) = ((pageSaves url pre).1, true) := by
  have hb : parseBlock url b = none := by
    simp [parseBlock, h]
  exact ⟨hb, pageSaves_append_none url b post hb pre⟩

/-- C3, witness: a concrete block whose body has no "days" figure. -/
theorem C3_witness :
    findallFeedback blockC3.body_text.data = [] ∧
      parseBlock "http://u" blockC3 = none := by
  have h : findallFeedback blockC3.body_text.data = [] := by decide
  exact ⟨h, (C3_no_days_fatal "http://u" blockC3 [] [] h).1⟩

/-- C4.  For every assembled record, the feedback deadline is the
publication date plus the record's feedback window in days, and it is
present exactly when the publication date is present: either both are
absent (no date text located), or the date is a calendar date and the
deadline is that date advanced by `feedback_days` days. -/
theorem C4_deadline (url : String) (b : Block) (pub : Publication)
    (h : parseBlock url b = some pub) :
    (pub.date = none ∧ pub.max_feedback_date = none) ∨
      (∃ d fd, pub.date = some (isoformat d) ∧
        dateAdd d pub.feedback_days = some fd ∧
        pub.max_feedback_date = some (isoformat fd)) := by
  obtain ⟨tfd, dd, documents, h1, h2, h3, rfl⟩ := parseBlock_inv url b pub h
  rcases dateAndDeadline_inv _ _ _ h2 with hnone | ⟨d, fdd, hadd, hdd⟩
  · left
    rw [hnone]
    exact ⟨rfl, rfl⟩
  · right
    exact ⟨d, fdd, by rw [hdd], hadd, by rw [hdd]⟩

/-- C4, witness: the block whose body contains "de la 05-03-2020" and a
ten-day feedback phrase assembles to a record with date 2020-03-05,
window 10 and deadline 2020-03-15, in the relation proved by
`C4_deadline`. -/
theorem C4_witness :
    ∃ pub, parseBlock "http://u" blockC4 = some pub ∧
      pub.date = some "2020-03-05" ∧ pub.feedback_days = 10 ∧
      pub.max_feedback_date = some "2020-03-15" ∧
      ((pub.date = none ∧ pub.max_feedback_date = none) ∨
        (∃ d fd, pub.date = some (isoformat d) ∧
          dateAdd d pub.feedback_days = some fd ∧
          pub.max_feedback_date = some (isoformat fd))) := by
  refine ⟨_, rfl, rfl, rfl, rfl, C4_deadline "http://u" blockC4 _ rfl⟩

/-- C5, counterexample.  The claim says the identifier hashes the
not-yet-diacritic-stripped title, so titles differing only in diacritics
get different identifiers.  In the code the title is diacritic-stripped
(line 106) before `identify` is called (line 137): the two blocks below,
whose titles differ only in the diacritic of "țara", assemble successfully
and receive the same identifier. -/
theorem C5_counterexample :
    (parseBlock "http://u" blockC5a).map Publication.identifier =
      (parseBlock "http://u" blockC5b).map Publication.identifier ∧
    (parseBlock "http://u" blockC5a).isSome = true ∧
    blockC5a.title ≠ blockC5b.title := by
  have h5 : strip_diacritics "Lege privind țara" =
      strip_diacritics "Lege privind tara" := by decide
  have hblocks : parseBlock "http://u" blockC5a = parseBlock "http://u" blockC5b := by
    show parseBlock "http://u"
        ⟨"Lege privind țara", "termen limita 5 zile", [], []⟩ =
      parseBlock "http://u"
        ⟨"Lege privind tara", "termen limita 5 zile", [], []⟩
    simp only [parseBlock]
    rw [h5]
  refine ⟨by rw [hblocks], by decide, by decide⟩

/-- C5, amended.  The record identifier is computed by hashing the
diacritic-stripped title and joining the source URL with the hash
(so titles that differ only in diacritics collapse to the same
identifier). -/
theorem C5_amended (url : String) (b : Block) (pub : Publication)
    (h : parseBlock url b = some pub) :
    pub.identifier = url ++ " : " ++ md5hex (strip_diacritics b.title) := by
  obtain ⟨tfd, dd, documents, h1, h2, h3, rfl⟩ := parseBlock_inv url b pub h
  rfl

/-- C5, witness: the identifier of a concretely assembled record is the
URL joined with the MD5 hex digest of the stripped title. -/
theorem C5_witness :
    ∃ pub, parseBlock "http://u" blockC5a = some pub ∧
      pub.identifier =
        "http://u" ++ " : " ++ md5hex (strip_diacritics blockC5a.title) := by
  refine ⟨_, rfl, C5_amended "http://u" blockC5a _ rfl⟩

/-- C6, counterexample.  The claim says a connector-free title is
classified against the whole title, so "lege" should yield "LEGE".  In the
code classification only happens inside the `if stop_pos:` branch, so the
connector-free title "lege" keeps the initial sentinel "OTHER" even though
the classifier itself would return "LEGE" on it. -/
theorem C6_counterexample :
    findStop ("lege").data = none ∧
      guess_initiative_type "lege" TYPE_RULES = "LEGE" ∧
      publicationTypeOf "lege" = "OTHER" := by
  decide

/-- C6, amended.  When the title contains no connector word ("pentru" or
"privind"), the title is never passed to the classifier: the type code is
the initial sentinel "OTHER" regardless of the title's content. -/
theorem C6_amended (t : String) (h : findStop t.data = none) :
    publicationTypeOf t = "OTHER" := by
  simp [publicationTypeOf, h]

/-- C6, witness: the connector-free title "lege". -/
theorem C6_witness :
    findStop ("lege").data = none ∧ publicationTypeOf "lege" = "OTHER" :=
  ⟨by decide, C6_amended "lege" (by decide)⟩

/-- C7.  The pagination controller over the two page-metadata integers:
when `current_page < total_pages` it emits exactly one next-page request,
whose URL is the current URL with the decimal rendering of the current
page number substituted by that of the next; when
`current_page ≥ total_pages` it is terminal and emits nothing. -/
theorem C7_pagination (url : String) (current_page total_pages : Int) :
    (current_page < total_pages →
      paginate url current_page total_pages =
        some (pyReplace url (toString current_page)
          (toString (current_page + 1)))) ∧
    (total_pages ≤ current_page →
      paginate url current_page total_pages = none) := by
  constructor
  · intro h
    simp [paginate, h]
  · intro h
    simp [paginate, not_lt.mpr h]

/-- C7, witness: with the index URL on page 2 of 5 the controller
continues to page 3; on page 5 of 5 it stops. -/
theorem C7_witness :
    paginate "http://www.ms.ro/acte-normative-in-transparenta/?vpage=2" 2 5 =
      some "http://www.ms.ro/acte-normative-in-transparenta/?vpage=3" ∧
    paginate "http://www.ms.ro/acte-normative-in-transparenta/?vpage=5" 5 5 =
      none := by
  constructor
  · rw [(C7_pagination
      "http://www.ms.ro/acte-normative-in-transparenta/?vpage=2" 2 5).1
      (by decide)]
    rfl
  · exact (C7_pagination
      "http://www.ms.ro/acte-normative-in-transparenta/?vpage=5" 5 5).2
      (by decide)

/-- C8, counterexample.  The claim says the date matcher accepts one or
two digits for the month, so "de la 5-3-2020" should be located.  The
pattern's month field is exactly two digits (`\d{2}`), so no date is
located in that body text. -/
theorem C8_counterexample : findallDate ("de la 5-3-2020".data) = [] := by
  decide

/-- C8, amended.  Every located date text has one or two day digits, a
separator '-' or '/', exactly two month digits, a separator, and four year
digits; "de la 5-3-2020" is not located while "de la 5-03-2020" is; a
'/'-separated date such as "de la 05/03/2020" is located but fails the
'-'-based strict day-month-year parse (and is therefore treated as a
malformed date). -/
theorem C8_amended (s : List Char) (cap : String) (h : cap ∈ findallDate s) :
    dateCapShape cap = true ∧
      findallDate ("de la 5-3-2020".data) = [] ∧
      findallDate ("de la 5-03-2020".data) = ["5-03-2020"] ∧
      findallDate ("de la 05/03/2020".data) = ["05/03/2020"] ∧
      strptime_dmy "05/03/2020" = none := by
  refine ⟨?_, by decide, by decide, by decide, by decide⟩
  obtain ⟨s0, pr, hm, hcap⟩ := findallDateAux_mem cap s.length s h
  rw [← hcap]
  exact matchDateAt_shape _ _ hm

/-- C8, witness: the located capture "5-03-2020" of the body text
"de la 5-03-2020" has the day-month-year shape. -/
theorem C8_witness :
    dateCapShape "5-03-2020" = true ∧
      findallDate ("de la 5-3-2020".data) = [] ∧
      findallDate ("de la 5-03-2020".data) = ["5-03-2020"] ∧
      findallDate ("de la 05/03/2020".data) = ["05/03/2020"] ∧
      strptime_dmy "05/03/2020" = none :=
  C8_amended ("de la 5-03-2020".data) "5-03-2020" (by decide)

/-- C9.  The normalizer `strip_diacritics` is idempotent: its output is
always ASCII (the substitution rules produce ASCII letters and the
`unidecode` fallback transliterates everything else to ASCII), and on
ASCII input both passes are the identity. -/
theorem C9_idempotent (x : String) :
    strip_diacritics (strip_diacritics x) = strip_diacritics x :=
  strip_diacritics_of_ascii _ (strip_diacritics_ascii x)

/-- C10.  Every assembled record's feedback window comes from the 1-2
digit capture of the "days" pattern, so it is an integer between 0 and
99; in particular a three-digit day count in the body can never produce a
window above 99. -/
theorem C10_feedback_range (url : String) (b : Block) (pub : Publication)
    (h : parseBlock url b = some pub) : pub.feedback_days ≤ 99 := by
  obtain ⟨tfd, dd, documents, h1, h2, h3, rfl⟩ := parseBlock_inv url b pub h
  have hmem : tfd ∈ findallFeedback b.body_text.data := by
    cases hl : findallFeedback b.body_text.data with
    | nil => rw [hl] at h1; exact absurd h1 (by simp)
    | cons a rest =>
      rw [hl] at h1
      simp only [List.head?_cons, Option.some.injEq] at h1
      subst h1
      exact List.mem_cons_self a rest
  obtain ⟨hdig, _, hlen⟩ := findallFeedback_cap _ _ hmem
  exact natOfDigits_le_99 _ hdig hlen

/-- C10, witness: the block whose body states the three-digit count
"120 zile" assembles with a window of 12 (the first two digits), within
the bound proved by `C10_feedback_range`. -/
theorem C10_witness :
    ∃ pub, parseBlock "http://u" blockC10 = some pub ∧
      pub.feedback_days = 12 ∧ pub.feedback_days ≤ 99 := by
  refine ⟨_, rfl, rfl, C10_feedback_range "http://u" blockC10 _ rfl⟩
